import Mathlib

/-!
Verification of the green_functions package (Go) against its specification.

Shallow embedding conventions:
- Go `float64` values are modelled as real numbers (exact arithmetic).
- Go `complex128` values are modelled as `ℂ`.
- Parameters that the code only tests with `math.IsInf(x, 1)` (the free
  surface and the water depth) are modelled by `GoFloat`, a real value or
  positive infinity.
- Fallible Go functions returning `(T, error)` are modelled by `GFResult`;
  a Go runtime panic (e.g. gonum's `mat.NewCDense` with a non-positive
  dimension, which is documented to panic) is modelled by the `fault`
  constructor, distinct from an error return.
-/

namespace GreenFunctions

/-- Model of a Go float64 parameter that the code only inspects through
`math.IsInf(x, 1)`: either a finite real value or positive infinity. -/
inductive GoFloat where
  | fin (x : ℝ)
  | posInf

/-- Result of a fallible Go computation: a value, an error return, or a
runtime panic (`fault`). -/
inductive GFResult (α : Type) where
  | ok (val : α)
  | err (msg : String)
  | fault

/-- Model of a gonum `*mat.CDense` complex matrix: dimensions plus an entry
function (entries are only meaningful for indices inside the dimensions). -/
structure CMatrix where
  rows : ℤ
  cols : ℤ
  entry : ℤ → ℤ → ℂ

/-- Model of a gonum `*mat.Dense` real matrix. -/
structure RMatrix where
  rows : ℤ
  cols : ℤ
  entry : ℤ → ℤ → ℝ

/-- `mat.NewCDense(r, c, nil)`: a freshly allocated all-zero complex matrix. -/
def zeroCMatrix (r c : ℤ) : CMatrix :=
  { rows := r, cols := c, entry := fun _ _ => 0 }

/-- `mat.NewDense(r, c, nil)`: a freshly allocated all-zero real matrix. -/
def zeroRMatrix (r c : ℤ) : RMatrix :=
  { rows := r, cols := c, entry := fun _ _ => 0 }

/-- The `MeshLike` interface: face centers, face normals, face count. -/
structure MeshLike where
  facesCenters : RMatrix
  facesNormals : RMatrix
  nbFaces : ℤ

/-- The dynamic `interface{}` mesh argument of `Evaluate`: a value
implementing `MeshLike`, a raw `*mat.Dense` point array, or anything else. -/
inductive MeshInput where
  | meshLike (m : MeshLike)
  | pointArray (a : RMatrix)
  | other

def errMesh2MeshLike : String :=
  "mesh2 must implement MeshLike interface when mesh1 is MeshLike"

def errPointArrayCols : String :=
  "point array must have 3 columns (x, y, z coordinates)"

def errMesh2PointArray : String :=
  "mesh2 must implement MeshLike interface when mesh1 is point array"

def errUnrecognizedInput : String :=
  "unrecognized first input type for Green function evaluation"

def errMesh2Interface : String :=
  "mesh2 must implement MeshLike interface"

/-- `BaseGreenFunction.getColocationPointsAndNormals` from the source.
The dummy-normals branch allocates `mat.NewDense(rows, 3, nil)`, which
panics when `rows ≤ 0`; that panic is modelled by `fault`. -/
def getColocationPointsAndNormals (mesh1 mesh2 : MeshInput)
    (adjointDoubleLayer : Bool) : GFResult (RMatrix × RMatrix) :=
  match mesh1 with
  | .meshLike m1 =>
    if adjointDoubleLayer then
      .ok (m1.facesCenters, m1.facesNormals)
    else
      match mesh2 with
      | .meshLike m2 => .ok (m1.facesCenters, m2.facesNormals)
      | _ => .err errMesh2MeshLike
  | .pointArray a =>
    if a.cols ≠ 3 then .err errPointArrayCols
    else if adjointDoubleLayer then
      if a.rows ≤ 0 then .fault else .ok (a, zeroRMatrix a.rows 3)
    else
      match mesh2 with
      | .meshLike m2 => .ok (a, m2.facesNormals)
      | _ => .err errMesh2PointArray
  | .other => .err errUnrecognizedInput

/-- `BaseGreenFunction.initMatrices` from the source: it allocates the S and
K matrices with `mat.NewCDense` and always returns a nil error.  It performs
no dimension validation of its own; `mat.NewCDense` panics (modelled by
`fault`) when a dimension is non-positive. -/
def initMatrices (rows cols : ℤ) (earlyDotProduct : Bool) :
    GFResult (CMatrix × CMatrix) :=
  if rows ≤ 0 ∨ cols ≤ 0 then .fault
  else
    .ok (zeroCMatrix rows cols,
         zeroCMatrix rows (cols * (if earlyDotProduct then 1 else 3)))

/-- `ValidateMatrixDimensions` from the source (`none` models a nil error). -/
def ValidateMatrixDimensions (rows cols : ℤ) : Option String :=
  if rows ≤ 0 ∨ cols ≤ 0 then some "Matrix dimensions must be positive"
  else if rows > 1000000 ∨ cols > 1000000 then
    some "Matrix dimensions too large"
  else none

/-- Row count determination shared verbatim by all four `Evaluate`
implementations: `GetNbFaces()` for a mesh, the row dimension for a point
array, and the Go zero value otherwise. -/
def meshRows (mesh1 : MeshInput) : ℤ :=
  match mesh1 with
  | .meshLike m1 => m1.nbFaces
  | .pointArray a => a.rows
  | .other => 0

/-- The assembly pipeline every strategy's `Evaluate` runs after its own
domain checks: extract colocation data, determine dimensions, allocate S/K.
This block is duplicated verbatim in the four Go `Evaluate` methods. -/
def evaluateShared (mesh1 mesh2 : MeshInput)
    (adjointDoubleLayer earlyDotProduct : Bool) :
    GFResult (CMatrix × CMatrix) :=
  match getColocationPointsAndNormals mesh1 mesh2 adjointDoubleLayer with
  | .err m => .err m
  | .fault => .fault
  | .ok _ =>
    match mesh2 with
    | .meshLike m2 => initMatrices (meshRows mesh1) m2.nbFaces earlyDotProduct
    | _ => .err errMesh2Interface

/-- `Delhommeau.Evaluate`: no domain constraints; the kernel fill is a
TODO in the source, so the matrices are returned as allocated. -/
def DelhommeauEvaluate (mesh1 mesh2 : MeshInput)
    (freeSurface waterDepth : GoFloat) (wavenumber : ℂ)
    (adjointDoubleLayer earlyDotProduct : Bool) :
    GFResult (CMatrix × CMatrix) :=
  evaluateShared mesh1 mesh2 adjointDoubleLayer earlyDotProduct

/-- `HAMS.Evaluate`: same shared pipeline, no domain constraints. -/
def HAMSEvaluate (mesh1 mesh2 : MeshInput)
    (freeSurface waterDepth : GoFloat) (wavenumber : ℂ)
    (adjointDoubleLayer earlyDotProduct : Bool) :
    GFResult (CMatrix × CMatrix) :=
  evaluateShared mesh1 mesh2 adjointDoubleLayer earlyDotProduct

def lwnConstraintMsg : String :=
  "LiangWuNoblesseGF is only implemented for infinite depth with a free surface"

/-- `LiangWuNoblesseGF.Evaluate`: rejects an infinite free surface or a
finite water depth (`math.IsInf(freeSurface, 1) || !math.IsInf(waterDepth, 1)`),
then runs the shared pipeline.  The `gfSingularitiesIndex` computed from the
wavenumber is discarded by the source. -/
def LiangWuNoblesseEvaluate (mesh1 mesh2 : MeshInput)
    (freeSurface waterDepth : GoFloat) (wavenumber : ℂ)
    (adjointDoubleLayer earlyDotProduct : Bool) :
    GFResult (CMatrix × CMatrix) :=
  match freeSurface, waterDepth with
  | .posInf, _ => .err lwnConstraintMsg
  | .fin _, .fin _ => .err lwnConstraintMsg
  | .fin _, .posInf =>
    evaluateShared mesh1 mesh2 adjointDoubleLayer earlyDotProduct

/-- `FinGreen3D.computeDispersionRoots` (the water depth is the strategy's
current depth): root 0 is the supplied wave number; for finite depth the ten
evanescent roots `complex(0, n*π/h)` for n = 1..10 are appended. -/
noncomputable def computeDispersionRoots (waterDepth : GoFloat)
    (wavenumber : ℂ) : List ℂ :=
  match waterDepth with
  | .posInf => [wavenumber]
  | .fin h =>
    [wavenumber] ++
      (List.range 10).map
        (fun n => Complex.I * ((((n : ℝ) + 1) * Real.pi / h : ℝ) : ℂ))

/-- `FinGreen3D.Evaluate`: updates the stored depth, recomputes the
dispersion roots via `SetWaveNumber` (which never fails), then runs the
shared pipeline.  The roots only affect internal state, not the output. -/
noncomputable def FinGreen3DEvaluate (mesh1 mesh2 : MeshInput)
    (freeSurface waterDepth : GoFloat) (wavenumber : ℂ)
    (adjointDoubleLayer earlyDotProduct : Bool) :
    GFResult (CMatrix × CMatrix) :=
  let _roots := computeDispersionRoots waterDepth wavenumber
  evaluateShared mesh1 mesh2 adjointDoubleLayer earlyDotProduct

/-- The four kernel strategies. -/
inductive Strategy where
  | delhommeau
  | finGreen3D
  | liangWuNoblesse
  | hams

/-- Dispatch of `Evaluate` over the four strategies. -/
noncomputable def evalStrategy (s : Strategy) (mesh1 mesh2 : MeshInput)
    (freeSurface waterDepth : GoFloat) (wavenumber : ℂ)
    (adjointDoubleLayer earlyDotProduct : Bool) :
    GFResult (CMatrix × CMatrix) :=
  match s with
  | .delhommeau =>
    DelhommeauEvaluate mesh1 mesh2 freeSurface waterDepth wavenumber
      adjointDoubleLayer earlyDotProduct
  | .finGreen3D =>
    FinGreen3DEvaluate mesh1 mesh2 freeSurface waterDepth wavenumber
      adjointDoubleLayer earlyDotProduct
  | .liangWuNoblesse =>
    LiangWuNoblesseEvaluate mesh1 mesh2 freeSurface waterDepth wavenumber
      adjointDoubleLayer earlyDotProduct
  | .hams =>
    HAMSEvaluate mesh1 mesh2 freeSurface waterDepth wavenumber
      adjointDoubleLayer earlyDotProduct

/-- The gravitational constant used by the dispersion solver. -/
def Gravity : ℝ := 9.81

/-- The Newton-Raphson loop of `ComputeWaveNumber` (finite depth branch).
One unit of fuel is one Go loop iteration; the Go loop runs `i = 0..99`. -/
noncomputable def newtonLoop (h v : ℝ) : ℕ → ℝ → ℝ
  | 0, k => k
  | n + 1, k =>
    let tanh_kh := Real.tanh (k * h)
    let sech2_kh := 1 - tanh_kh * tanh_kh
    let f := k * tanh_kh - v
    let df := tanh_kh + k * h * sech2_kh
    if |df| < 1e-15 then k
    else
      let k_new := k - f / df
      if |k_new - k| < 1e-12 then k
      else newtonLoop h v n k_new

/-- `ComputeWaveNumber` from the source: deep water closed form, or the
Newton-Raphson iteration for finite depth; the result is returned as
`complex(k, 0)`. -/
noncomputable def ComputeWaveNumber (omega : ℝ) (waterDepth : GoFloat) : ℂ :=
  match waterDepth with
  | .posInf => ((omega * omega / Gravity : ℝ) : ℂ)
  | .fin h =>
    ((newtonLoop h (omega * omega / Gravity) 100 (omega * omega / Gravity) : ℝ) : ℂ)

/-- The dispersion residual `f(k) = k·tanh(k·h) − v` appearing inside the
Newton loop body. -/
noncomputable def dispF (h v k : ℝ) : ℝ := k * Real.tanh (k * h) - v

/-- The dispersion derivative `f'(k) = tanh(k·h) + k·h·(1 − tanh²(k·h))`
appearing inside the Newton loop body. -/
noncomputable def dispDF (h k : ℝ) : ℝ :=
  Real.tanh (k * h) + k * h * (1 - Real.tanh (k * h) * Real.tanh (k * h))

/-- The Newton-Raphson scheme exactly as §4.2 of the spec words it:
`f(k) = k·tanh(kh) − v`, `f'(k) = tanh(kh) + k·h·(1 − tanh²(kh))`, initial
guess `k₀ = v`, up to 100 steps, stop when `|f'(k)| < 1e-15` (degenerate
derivative) or `|k_new − k| < 1e-12` (converged). -/
noncomputable def specNewtonIterate (h v : ℝ) : ℕ → ℝ → ℝ
  | 0, k => k
  | n + 1, k =>
    let f := k * Real.tanh (k * h) - v
    let fp := Real.tanh (k * h) + k * h * (1 - Real.tanh (k * h) ^ 2)
    if |fp| < 1e-15 then k
    else if |(k - f / fp) - k| < 1e-12 then k
    else specNewtonIterate h v n (k - f / fp)

/-- The finite-depth wave number as the spec's scheme defines it, with
initial guess `v = omega²/g`. -/
noncomputable def specComputeWaveNumberFinite (omega h : ℝ) : ℝ :=
  specNewtonIterate h (omega ^ 2 / 9.81) 100 (omega ^ 2 / 9.81)

/-- `TabulationCache` from the source (the precision tag is irrelevant to
the cache logic and omitted). -/
structure TabulationCache where
  RRange : List ℝ
  ZRange : List ℝ
  Values : List (List ℂ)
  IsValid : Bool

/-- The scan of `TabulationCache.findIndex`: walk consecutive pairs,
return the current index when `arr[i] ≤ v ≤ arr[i+1]`, else `-1`. -/
noncomputable def findIndexAux (v : ℝ) : List ℝ → ℤ → ℤ
  | a :: b :: rest, i =>
    if a ≤ v ∧ v ≤ b then i else findIndexAux v (b :: rest) (i + 1)
  | _, _ => -1

/-- `TabulationCache.findIndex` from the source. -/
noncomputable def findIndex (arr : List ℝ) (v : ℝ) : ℤ :=
  findIndexAux v arr 0

def cacheInvalidMsg : String := "Tabulation cache is not valid"

def outOfRangeMsg : String := "Point outside tabulation range"

/-- `TabulationCache.Interpolate` from the source.  List indexing is total
(default 0); under the documented invariant (`Values` has `len(ZRange)` rows
and `len(RRange)` columns) all indices used below are in bounds, because the
bracket indices pass the guard `0 ≤ idx < len − 1`. -/
noncomputable def TabulationCache.Interpolate (tc : TabulationCache)
    (r z : ℝ) : GFResult ℂ :=
  if tc.IsValid then
    let rIdx := findIndex tc.RRange r
    let zIdx := findIndex tc.ZRange z
    if rIdx < 0 ∨ rIdx ≥ (tc.RRange.length : ℤ) - 1 ∨
        zIdx < 0 ∨ zIdx ≥ (tc.ZRange.length : ℤ) - 1 then
      .err outOfRangeMsg
    else
      let r1 := tc.RRange.getD rIdx.toNat 0
      let r2 := tc.RRange.getD (rIdx.toNat + 1) 0
      let z1 := tc.ZRange.getD zIdx.toNat 0
      let z2 := tc.ZRange.getD (zIdx.toNat + 1) 0
      let fr := (r - r1) / (r2 - r1)
      let fz := (z - z1) / (z2 - z1)
      let v11 := (tc.Values.getD zIdx.toNat []).getD rIdx.toNat 0
      let v12 := (tc.Values.getD (zIdx.toNat + 1) []).getD rIdx.toNat 0
      let v21 := (tc.Values.getD zIdx.toNat []).getD (rIdx.toNat + 1) 0
      let v22 := (tc.Values.getD (zIdx.toNat + 1) []).getD (rIdx.toNat + 1) 0
      let v1 := v11 * ((1 - fr : ℝ) : ℂ) + v21 * ((fr : ℝ) : ℂ)
      let v2 := v12 * ((1 - fr : ℝ) : ℂ) + v22 * ((fr : ℝ) : ℂ)
      .ok (v1 * ((1 - fz : ℝ) : ℂ) + v2 * ((fz : ℝ) : ℂ))
  else .err cacheInvalidMsg

/-- `FinGreen3D.computeInfiniteDepthGF` from the source (it never returns a
non-nil error). -/
noncomputable def computeInfiniteDepthGF (waveNumber : ℂ)
    (rr zf zp : ℝ) : ℂ :=
  let r := Real.sqrt (rr * rr + (zf - zp) * (zf - zp))
  let rPrime := Real.sqrt (rr * rr + (zf + zp) * (zf + zp))
  let rankine := 1 / r + 1 / rPrime
  let k := waveNumber.re
  if k = 0 then ((rankine : ℝ) : ℂ)
  else
    let waveHeight := k * (zf + zp)
    let wavePart : ℂ :=
      if waveHeight > -10 then ((2 * k * Real.exp waveHeight : ℝ) : ℂ) else 0
    ((rankine : ℝ) : ℂ) + wavePart

/-- The infinite-depth kernel value exactly as the spec words it: the
Rankine part `1/√(r²+(z_f−z_p)²) + 1/√(r²+(z_f+z_p)²)` plus a wave part that
is zero for a zero real wave number, equals the purely real
`2·k·exp(k·(z_f+z_p))` when `k·(z_f+z_p) > −10`, and is zero otherwise. -/
noncomputable def specInfiniteDepthG (waveNumber : ℂ) (rr zf zp : ℝ) : ℂ :=
  ((1 / Real.sqrt (rr ^ 2 + (zf - zp) ^ 2) +
    1 / Real.sqrt (rr ^ 2 + (zf + zp) ^ 2) : ℝ) : ℂ) +
  (if waveNumber.re = 0 then 0
   else if waveNumber.re * (zf + zp) > -10 then
     ((2 * waveNumber.re * Real.exp (waveNumber.re * (zf + zp)) : ℝ) : ℂ)
   else 0)

/-! ## Helper lemmas -/

/-- A two-face mock mesh, as in the Go test suite. -/
def mockMeshTwo : MeshLike :=
  { facesCenters := zeroRMatrix 2 3, facesNormals := zeroRMatrix 2 3, nbFaces := 2 }

/-- A one-face mock mesh. -/
def mockMeshOne : MeshLike :=
  { facesCenters := zeroRMatrix 1 3, facesNormals := zeroRMatrix 1 3, nbFaces := 1 }

lemma evaluateShared_ok_shape {m1 m2 : MeshInput} {adj edp : Bool}
    {p : CMatrix × CMatrix} (h : evaluateShared m1 m2 adj edp = .ok p) :
    ∃ mm2, m2 = .meshLike mm2 ∧
      p = (zeroCMatrix (meshRows m1) mm2.nbFaces,
           zeroCMatrix (meshRows m1) (mm2.nbFaces * (if edp then 1 else 3))) := by
  rcases m2 with mm2 | a | _
  · unfold evaluateShared at h
    split at h
    · exact absurd h (by simp)
    · exact absurd h (by simp)
    · split at h
      · rename_i m2x heq
        injection heq with heq
        subst heq
        unfold initMatrices at h
        split at h
        · exact absurd h (by simp)
        · injection h with h
          exact ⟨mm2, rfl, h.symm⟩
      · rename_i hu
        exact (hu mm2 rfl).elim
  · unfold evaluateShared at h
    split at h
    · exact absurd h (by simp)
    · exact absurd h (by simp)
    · exact absurd h (by simp)
  · unfold evaluateShared at h
    split at h
    · exact absurd h (by simp)
    · exact absurd h (by simp)
    · exact absurd h (by simp)

lemma getColocation_err_msgs {m1 m2 : MeshInput} {adj : Bool} {msg : String}
    (h : getColocationPointsAndNormals m1 m2 adj = .err msg) :
    msg = errMesh2MeshLike ∨ msg = errPointArrayCols ∨
      msg = errMesh2PointArray ∨ msg = errUnrecognizedInput := by
  rcases m1 with m1 | a | _ <;>
    simp only [getColocationPointsAndNormals] at h
  · split at h
    · exact absurd h (by simp)
    · split at h
      · exact absurd h (by simp)
      · injection h with h
        exact Or.inl h.symm
  · split at h
    · injection h with h
      exact Or.inr (Or.inl h.symm)
    · split at h
      · split at h
        · exact absurd h (by simp)
        · exact absurd h (by simp)
      · split at h
        · exact absurd h (by simp)
        · injection h with h
          exact Or.inr (Or.inr (Or.inl h.symm))
  · injection h with h
    exact Or.inr (Or.inr (Or.inr h.symm))

lemma evaluateShared_ne_lwnErr (m1 m2 : MeshInput) (adj edp : Bool) :
    evaluateShared m1 m2 adj edp ≠ .err lwnConstraintMsg := by
  unfold evaluateShared
  split
  next msg hc =>
    intro h
    injection h with h
    subst h
    rcases getColocation_err_msgs hc with h | h | h | h <;>
      exact absurd h (by decide)
  · simp
  · split
    · unfold initMatrices
      split
      · simp
      · simp
    · intro h
      injection h with h
      exact absurd h (by decide)

/-! ## Claim C1 -/

/-- Claim C1 (amended): `initMatrices` itself performs no dimension
validation and never returns an error: for all positive dimensions
(including ones beyond the 1,000,000 ceiling) it returns the two
zero-initialized matrices with a nil error, and for non-positive dimensions
the underlying allocation panics rather than returning an error.  The
dimension check the spec describes exists only as the standalone (and
uncalled) `ValidateMatrixDimensions`, which rejects exactly non-positive
dimensions and dimensions exceeding 1,000,000. -/
theorem claim1_amended :
    ∀ (rows cols : ℤ) (edp : Bool),
      (0 < rows → 0 < cols →
        initMatrices rows cols edp =
          .ok (zeroCMatrix rows cols,
               zeroCMatrix rows (cols * (if edp then 1 else 3)))) ∧
      (rows ≤ 0 ∨ cols ≤ 0 → initMatrices rows cols edp = .fault) ∧
      (ValidateMatrixDimensions rows cols = none ↔
        (0 < rows ∧ 0 < cols ∧ rows ≤ 1000000 ∧ cols ≤ 1000000)) := by
  intro rows cols edp
  refine ⟨fun hr hc => ?_, fun h => ?_, ?_⟩
  · unfold initMatrices
    rw [if_neg (by omega)]
  · unfold initMatrices
    rw [if_pos h]
  · unfold ValidateMatrixDimensions
    split
    · simp
      omega
    · split
      · simp
        omega
      · simp
        omega

/-- Counterexample to claim C1 as stated: for rows = 2,000,000 (beyond the
1,000,000 ceiling) `initMatrices` returns the matrices with a nil error
instead of failing, even though `ValidateMatrixDimensions` would reject
these dimensions. -/
theorem claim1_counterexample :
    initMatrices 2000000 1 true =
      .ok (zeroCMatrix 2000000 1, zeroCMatrix 2000000 1) ∧
    (1000000 : ℤ) < 2000000 ∧
    ValidateMatrixDimensions 2000000 1 ≠ none := by
  refine ⟨?_, by norm_num, by simp [ValidateMatrixDimensions]⟩
  unfold initMatrices
  norm_num [zeroCMatrix]

/-- Witness for claim C1 (amended) at rows = 3, cols = 2. -/
theorem claim1_witness :
    ((0 : ℤ) < 3 ∧ (0 : ℤ) < 2) ∧
    initMatrices 3 2 true =
      .ok (zeroCMatrix 3 2, zeroCMatrix 3 (2 * (if true then 1 else 3))) :=
  ⟨⟨by norm_num, by norm_num⟩,
    (claim1_amended 3 2 true).1 (by norm_num) (by norm_num)⟩

/-! ## Claim C5 -/

/-- Claim C5: `LiangWuNoblesseGF.Evaluate` fails with the domain-constraint
error exactly when the free surface is +∞ or the water depth is finite;
when the free surface is finite and the depth infinite it passes the domain
check and runs the shared assembly pipeline (so any remaining failure comes
from mesh extraction or allocation). -/
theorem claim5 :
    ∀ (m1 m2 : MeshInput) (fs wd : GoFloat) (wn : ℂ) (adj edp : Bool),
      ((fs = .posInf ∨ wd ≠ .posInf) →
        LiangWuNoblesseEvaluate m1 m2 fs wd wn adj edp =
          .err lwnConstraintMsg) ∧
      (LiangWuNoblesseEvaluate m1 m2 fs wd wn adj edp =
          .err lwnConstraintMsg → (fs = .posInf ∨ wd ≠ .posInf)) ∧
      ((fs ≠ .posInf ∧ wd = .posInf) →
        LiangWuNoblesseEvaluate m1 m2 fs wd wn adj edp =
          evaluateShared m1 m2 adj edp) := by
  intro m1 m2 fs wd wn adj edp
  refine ⟨?_, ?_, ?_⟩
  · rintro (hfs | hwd)
    · subst hfs
      rfl
    · cases fs with
      | posInf => rfl
      | fin x =>
        cases wd with
        | posInf => exact absurd rfl hwd
        | fin y => rfl
  · intro h
    cases fs with
    | posInf => exact Or.inl rfl
    | fin x =>
      cases wd with
      | fin y => exact Or.inr (by simp)
      | posInf =>
        exact absurd h (evaluateShared_ne_lwnErr m1 m2 adj edp)
  · rintro ⟨hfs, hwd⟩
    subst hwd
    cases fs with
    | posInf => exact absurd rfl hfs
    | fin x => rfl

/-- Witness for claim C5: the three concrete cases from the spec's testable
properties, on two-face mock meshes. -/
theorem claim5_witness :
    LiangWuNoblesseEvaluate (.meshLike mockMeshTwo) (.meshLike mockMeshTwo)
        .posInf .posInf 1 true true = .err lwnConstraintMsg ∧
    LiangWuNoblesseEvaluate (.meshLike mockMeshTwo) (.meshLike mockMeshTwo)
        (.fin 0) (.fin 10) 1 true true = .err lwnConstraintMsg ∧
    LiangWuNoblesseEvaluate (.meshLike mockMeshTwo) (.meshLike mockMeshTwo)
        (.fin 0) .posInf 1 true true =
      evaluateShared (.meshLike mockMeshTwo) (.meshLike mockMeshTwo) true true :=
  ⟨(claim5 (.meshLike mockMeshTwo) (.meshLike mockMeshTwo) .posInf .posInf
      1 true true).1 (Or.inl rfl),
   (claim5 (.meshLike mockMeshTwo) (.meshLike mockMeshTwo) (.fin 0) (.fin 10)
      1 true true).1 (Or.inr (by simp)),
   (claim5 (.meshLike mockMeshTwo) (.meshLike mockMeshTwo) (.fin 0) .posInf
      1 true true).2.2 ⟨by simp, rfl⟩⟩

/-! ## Claim C2 -/

/-- Claim C2: every successful `Evaluate` call on any of the four strategies
returns S and K matrices whose entries are all `0 + 0i`: no strategy writes
kernel values, so the matrices come back exactly as zero-initialized by
`initMatrices`. -/
theorem claim2 :
    ∀ (s : Strategy) (m1 m2 : MeshInput) (fs wd : GoFloat) (wn : ℂ)
      (adj edp : Bool) (p : CMatrix × CMatrix) (i j : ℤ),
      evalStrategy s m1 m2 fs wd wn adj edp = .ok p →
      p.1.entry i j = 0 ∧ p.2.entry i j = 0 := by
  intro s m1 m2 fs wd wn adj edp p i j h
  have hshared : evaluateShared m1 m2 adj edp = .ok p := by
    cases s with
    | delhommeau => exact h
    | hams => exact h
    | finGreen3D => exact h
    | liangWuNoblesse =>
      cases fs with
      | posInf => exact absurd h (by simp [evalStrategy, LiangWuNoblesseEvaluate])
      | fin x =>
        cases wd with
        | fin y => exact absurd h (by simp [evalStrategy, LiangWuNoblesseEvaluate])
        | posInf => exact h
  obtain ⟨mm2, -, hp⟩ := evaluateShared_ok_shape hshared
  rw [hp]
  exact ⟨rfl, rfl⟩

/-- Witness for claim C2: a successful HAMS evaluation on one-face meshes
returns all-zero matrices. -/
theorem claim2_witness :
    evalStrategy .hams (.meshLike mockMeshOne) (.meshLike mockMeshOne)
        (.fin 0) .posInf 1 true true =
      .ok (zeroCMatrix 1 1, zeroCMatrix 1 (1 * (if true then 1 else 3))) ∧
    (zeroCMatrix 1 1).entry 0 0 = 0 ∧
    (zeroCMatrix 1 (1 * (if true then 1 else 3))).entry 0 0 = 0 :=
  ⟨rfl,
   (claim2 .hams (.meshLike mockMeshOne) (.meshLike mockMeshOne)
      (.fin 0) .posInf 1 true true _ 0 0 rfl).1,
   (claim2 .hams (.meshLike mockMeshOne) (.meshLike mockMeshOne)
      (.fin 0) .posInf 1 true true _ 0 0 rfl).2⟩

/-! ## Claim C10 -/

/-- Claim C10: for every successful `Evaluate` (any strategy) on meshes with
P1 and P2 panels, S is P1×P2 and K is P1×(P2·1) with early dot product,
P1×(P2·3) without; hence S and K share the row count, K's column count is an
exact ×1/×3 multiple of S's, and both matrices are zero-initialized. -/
theorem claim10 :
    ∀ (s : Strategy) (m1 m2 : MeshLike) (fs wd : GoFloat) (wn : ℂ)
      (adj edp : Bool) (p : CMatrix × CMatrix),
      evalStrategy s (.meshLike m1) (.meshLike m2) fs wd wn adj edp = .ok p →
      p.1.rows = m1.nbFaces ∧ p.1.cols = m2.nbFaces ∧
      p.2.rows = m1.nbFaces ∧
      p.2.cols = m2.nbFaces * (if edp then 1 else 3) ∧
      p.2.rows = p.1.rows ∧
      p.2.cols = p.1.cols * (if edp then 1 else 3) ∧
      (∀ i j, p.1.entry i j = 0 ∧ p.2.entry i j = 0) := by
  intro s m1 m2 fs wd wn adj edp p h
  have hshared : evaluateShared (.meshLike m1) (.meshLike m2) adj edp = .ok p := by
    cases s with
    | delhommeau => exact h
    | hams => exact h
    | finGreen3D => exact h
    | liangWuNoblesse =>
      cases fs with
      | posInf => exact absurd h (by simp [evalStrategy, LiangWuNoblesseEvaluate])
      | fin x =>
        cases wd with
        | fin y => exact absurd h (by simp [evalStrategy, LiangWuNoblesseEvaluate])
        | posInf => exact h
  obtain ⟨mm2, hmm2, hp⟩ := evaluateShared_ok_shape hshared
  have hm2 : mm2 = m2 := by
    cases hmm2
    rfl
  subst hm2
  rw [hp]
  exact ⟨rfl, rfl, rfl, rfl, rfl, rfl, fun i j => ⟨rfl, rfl⟩⟩

/-- Witness for claim C10: a successful Delhommeau evaluation on two-face
meshes with `earlyDotProduct = false` yields a 2×2 S and a 2×6 K. -/
theorem claim10_witness :
    evalStrategy .delhommeau (.meshLike mockMeshTwo) (.meshLike mockMeshTwo)
        (.fin 0) (.fin 5) 1 true false =
      .ok (zeroCMatrix 2 2, zeroCMatrix 2 (2 * (if false then 1 else 3))) ∧
    (zeroCMatrix 2 2).rows = mockMeshTwo.nbFaces ∧
    (zeroCMatrix 2 (2 * (if false then 1 else 3))).cols =
      mockMeshTwo.nbFaces * (if false then 1 else 3) :=
  ⟨rfl,
   (claim10 .delhommeau mockMeshTwo mockMeshTwo (.fin 0) (.fin 5)
      1 true false _ rfl).1,
   (claim10 .delhommeau mockMeshTwo mockMeshTwo (.fin 0) (.fin 5)
      1 true false _ rfl).2.2.2.1⟩

/-! ## Claims C6 and C7: the tabulation cache -/

lemma findIndexAux_range (v : ℝ) :
    ∀ (l : List ℝ), ∀ (i : ℤ),
      findIndexAux v l i = -1 ∨
        (i ≤ findIndexAux v l i ∧
          findIndexAux v l i ≤ i + (l.length : ℤ) - 2) := by
  intro l
  induction l with
  | nil => intro i; exact Or.inl rfl
  | cons a t ih =>
    intro i
    cases t with
    | nil => exact Or.inl rfl
    | cons b rest =>
      simp only [findIndexAux]
      split
      · right
        refine ⟨le_refl i, ?_⟩
        simp only [List.length_cons]
        push_cast
        omega
      · rcases ih (i + 1) with h | ⟨h1, h2⟩
        · exact Or.inl h
        · right
          simp only [List.length_cons] at h2 ⊢
          push_cast at h2 ⊢
          omega

lemma findIndex_range (arr : List ℝ) (v : ℝ) :
    findIndex arr v = -1 ∨
      (0 ≤ findIndex arr v ∧ findIndex arr v ≤ (arr.length : ℤ) - 2) := by
  simpa using findIndexAux_range v arr 0

/-- A valid 2×2 unit-square cache with corner values 1,2,3,4 in r-then-z
order (`Values[z][r]`). -/
def unitSquareCache : TabulationCache :=
  { RRange := [0, 1], ZRange := [0, 1],
    Values := [[1, 2], [3, 4]], IsValid := true }

/-- An unpopulated cache: same grid, validity flag still false. -/
def invalidCache : TabulationCache :=
  { RRange := [0, 1], ZRange := [0, 1],
    Values := [[1, 2], [3, 4]], IsValid := false }

/-- Claim C6: `Interpolate` fails with the cache-invalid error whenever the
validity flag is false; when the cache is valid it fails exactly when
`findIndex` yields −1 or the last index for either coordinate, and in every
other case returns a value without error. -/
theorem claim6 :
    ∀ (tc : TabulationCache) (r z : ℝ),
      (tc.IsValid = false → tc.Interpolate r z = .err cacheInvalidMsg) ∧
      (tc.IsValid = true →
        ((∃ m, tc.Interpolate r z = .err m) ↔
          (findIndex tc.RRange r = -1 ∨
           findIndex tc.RRange r = (tc.RRange.length : ℤ) - 1 ∨
           findIndex tc.ZRange z = -1 ∨
           findIndex tc.ZRange z = (tc.ZRange.length : ℤ) - 1))) ∧
      (tc.IsValid = true →
        ¬(findIndex tc.RRange r = -1 ∨
          findIndex tc.RRange r = (tc.RRange.length : ℤ) - 1 ∨
          findIndex tc.ZRange z = -1 ∨
          findIndex tc.ZRange z = (tc.ZRange.length : ℤ) - 1) →
        ∃ c, tc.Interpolate r z = .ok c) := by
  intro tc r z
  have hr := findIndex_range tc.RRange r
  have hz := findIndex_range tc.ZRange z
  refine ⟨fun hv => ?_, fun hv => ?_, fun hv hnot => ?_⟩
  · simp [TabulationCache.Interpolate, hv]
  · simp only [TabulationCache.Interpolate, hv, if_true]
    by_cases hg : findIndex tc.RRange r < 0 ∨
        findIndex tc.RRange r ≥ (tc.RRange.length : ℤ) - 1 ∨
        findIndex tc.ZRange z < 0 ∨
        findIndex tc.ZRange z ≥ (tc.ZRange.length : ℤ) - 1
    · rw [if_pos hg]
      constructor
      · intro _
        omega
      · intro _
        exact ⟨outOfRangeMsg, rfl⟩
    · rw [if_neg hg]
      constructor
      · rintro ⟨m, hm⟩
        exact GFResult.noConfusion hm
      · intro hcond
        omega
  · simp only [TabulationCache.Interpolate, hv, if_true]
    rw [if_neg (by omega)]
    exact ⟨_, rfl⟩

/-- Witness for claim C6: the unpopulated cache fails, and the valid cache
fails at the out-of-range coordinate r = 5. -/
theorem claim6_witness :
    invalidCache.Interpolate 0 0 = .err cacheInvalidMsg ∧
    (∃ m, unitSquareCache.Interpolate 5 (1 / 2) = .err m) :=
  ⟨(claim6 invalidCache 0 0).1 rfl,
   ((claim6 unitSquareCache 5 (1 / 2)).2.1 rfl).mpr
     (Or.inl (by norm_num [findIndex, findIndexAux, unitSquareCache]))⟩

/-- The bilinear blend of §4.3 of the spec, with the spec's corner
convention (`v11 = Values[z1][r1]`, `v21` at `(r2,z1)`, `v12` at `(r1,z2)`,
`v22` at `(r2,z2)`): blend first along r, then along z. -/
noncomputable def specBilinear (tc : TabulationCache) (r z : ℝ)
    (ri zi : ℕ) : ℂ :=
  let r1 := tc.RRange.getD ri 0
  let r2 := tc.RRange.getD (ri + 1) 0
  let z1 := tc.ZRange.getD zi 0
  let z2 := tc.ZRange.getD (zi + 1) 0
  let fr := (r - r1) / (r2 - r1)
  let fz := (z - z1) / (z2 - z1)
  let v11 := (tc.Values.getD zi []).getD ri 0
  let v21 := (tc.Values.getD zi []).getD (ri + 1) 0
  let v12 := (tc.Values.getD (zi + 1) []).getD ri 0
  let v22 := (tc.Values.getD (zi + 1) []).getD (ri + 1) 0
  let v1 := v11 * ((1 - fr : ℝ) : ℂ) + v21 * ((fr : ℝ) : ℂ)
  let v2 := v12 * ((1 - fr : ℝ) : ℂ) + v22 * ((fr : ℝ) : ℂ)
  v1 * ((1 - fz : ℝ) : ℂ) + v2 * ((fz : ℝ) : ℂ)

/-- Claim C7: on a valid cache whose ranges bracket (r, z), `Interpolate`
returns exactly the spec's bilinear blend with the spec's corner-indexing
convention; in particular the midpoint of the unit square with corner
values 1,2,3,4 yields their arithmetic mean 5/2. -/
theorem claim7 :
    (∀ (tc : TabulationCache) (r z : ℝ) (ri zi : ℕ),
      tc.IsValid = true →
      findIndex tc.RRange r = (ri : ℤ) →
      findIndex tc.ZRange z = (zi : ℤ) →
      ri + 1 < tc.RRange.length →
      zi + 1 < tc.ZRange.length →
      tc.Interpolate r z = .ok (specBilinear tc r z ri zi)) ∧
    unitSquareCache.Interpolate (1 / 2) (1 / 2) = .ok ((5 : ℂ) / 2) := by
  constructor
  · intro tc r z ri zi hv hfr hfz hri hzi
    simp only [TabulationCache.Interpolate, hv, if_true, hfr, hfz]
    rw [if_neg (by omega)]
    simp only [Int.toNat_natCast]
    rfl
  · norm_num [TabulationCache.Interpolate, findIndex, findIndexAux,
      unitSquareCache]

/-- Witness for claim C7 at the unit-square cache and its midpoint. -/
theorem claim7_witness :
    unitSquareCache.IsValid = true ∧
    findIndex unitSquareCache.RRange (1 / 2) = ((0 : ℕ) : ℤ) ∧
    findIndex unitSquareCache.ZRange (1 / 2) = ((0 : ℕ) : ℤ) ∧
    unitSquareCache.Interpolate (1 / 2) (1 / 2) =
      .ok (specBilinear unitSquareCache (1 / 2) (1 / 2) 0 0) :=
  ⟨rfl,
   by norm_num [findIndex, findIndexAux, unitSquareCache],
   by norm_num [findIndex, findIndexAux, unitSquareCache],
   claim7.1 unitSquareCache (1 / 2) (1 / 2) 0 0 rfl
     (by norm_num [findIndex, findIndexAux, unitSquareCache])
     (by norm_num [findIndex, findIndexAux, unitSquareCache])
     (by norm_num [unitSquareCache]) (by norm_num [unitSquareCache])⟩

/-! ## Claim C8: the dispersion root family -/

/-- Claim C8: the root family computed by FinGreen3D from a supplied wave
number k0 has root 0 equal to k0; for finite depth h there are exactly ten
additional evanescent roots `i·n·π/h` for n = 1..10 in order, and for
infinite depth the family is exactly [k0]. -/
theorem claim8 :
    ∀ (k0 : ℂ) (h : ℝ),
      (computeDispersionRoots (.fin h) k0).length = 11 ∧
      (computeDispersionRoots (.fin h) k0).getD 0 0 = k0 ∧
      (∀ n : ℕ, 1 ≤ n → n ≤ 10 →
        (computeDispersionRoots (.fin h) k0).getD n 0 =
          Complex.I * (((n : ℝ) * Real.pi / h : ℝ) : ℂ)) ∧
      computeDispersionRoots .posInf k0 = [k0] := by
  intro k0 h
  have hrange : List.range 10 = [0, 1, 2, 3, 4, 5, 6, 7, 8, 9] := rfl
  refine ⟨?_, ?_, ?_, rfl⟩
  · rfl
  · simp [computeDispersionRoots]
  · intro n h1 h10
    interval_cases n <;>
      · simp only [computeDispersionRoots, hrange, List.map_cons,
          List.map_nil, List.singleton_append, List.getD_cons_succ,
          List.getD_cons_zero]
        norm_num

/-- Witness for claim C8 at n = 3, h = 2. -/
theorem claim8_witness :
    (computeDispersionRoots (.fin 2) 1).getD 3 0 =
      Complex.I * ((((3 : ℕ) : ℝ) * Real.pi / 2 : ℝ) : ℂ) :=
  (claim8 1 2).2.2.1 3 (by norm_num) (by norm_num)

/-! ## Claim C9: the FinGreen3D infinite-depth kernel -/

/-- Claim C9: the infinite-depth per-pair kernel value equals the Rankine
part `1/√(r²+(z_f−z_p)²) + 1/√(r²+(z_f+z_p)²)` plus a wave part that is
zero for zero real wave number, equals the purely real `2k·exp(k(z_f+z_p))`
when `k(z_f+z_p) > −10`, and is zero otherwise; the whole value is purely
real. -/
theorem claim9 :
    ∀ (k : ℂ) (rr zf zp : ℝ),
      computeInfiniteDepthGF k rr zf zp = specInfiniteDepthG k rr zf zp ∧
      (computeInfiniteDepthGF k rr zf zp).im = 0 := by
  intro k rr zf zp
  have hx : rr * rr + (zf - zp) * (zf - zp) = rr ^ 2 + (zf - zp) ^ 2 := by
    ring
  have hy : rr * rr + (zf + zp) * (zf + zp) = rr ^ 2 + (zf + zp) ^ 2 := by
    ring
  constructor
  · simp only [computeInfiniteDepthGF, specInfiniteDepthG, hx, hy]
    by_cases hk : k.re = 0
    · rw [if_pos hk, if_pos hk]
      simp
    · rw [if_neg hk, if_neg hk]
  · simp only [computeInfiniteDepthGF]
    by_cases hk : k.re = 0
    · simp [hk]
    · rw [if_neg hk]
      by_cases hw : k.re * (zf + zp) > -10
      · rw [if_pos hw]
        simp only [Complex.add_im, Complex.ofReal_im, add_zero]
      · rw [if_neg hw]
        simp only [Complex.add_im, Complex.ofReal_im, Complex.zero_im,
          add_zero]

/-! ## Claims C3 and C4: the dispersion solver -/

lemma tanh_nonneg_of_nonneg {x : ℝ} (hx : 0 ≤ x) : 0 ≤ Real.tanh x := by
  rw [Real.tanh_eq_sinh_div_cosh]
  exact div_nonneg (Real.sinh_nonneg_iff.mpr hx) (Real.cosh_pos x).le

lemma abs_tanh_lt_one (x : ℝ) : |Real.tanh x| < 1 := by
  rw [Real.tanh_eq_sinh_div_cosh, abs_div, abs_of_pos (Real.cosh_pos x),
    div_lt_one (Real.cosh_pos x), Real.abs_sinh, ← Real.cosh_abs]
  linarith [Real.cosh_sub_sinh |x|, Real.exp_pos (-|x|)]

lemma tanh_le_one (x : ℝ) : Real.tanh x ≤ 1 :=
  ((abs_lt.mp (abs_tanh_lt_one x)).2).le

lemma abs_mul_sech_sq_le (x : ℝ) :
    |x * (1 - Real.tanh x * Real.tanh x)| ≤ 1 := by
  have hc := Real.cosh_pos x
  have hsech : 1 - Real.tanh x * Real.tanh x = 1 / Real.cosh x ^ 2 := by
    have htt : Real.tanh x * Real.tanh x =
        Real.sinh x ^ 2 / Real.cosh x ^ 2 := by
      rw [Real.tanh_eq_sinh_div_cosh]
      ring
    rw [htt]
    field_simp
  have hnn : (0 : ℝ) ≤ 1 / Real.cosh x ^ 2 := by positivity
  rw [hsech, abs_mul, abs_of_nonneg hnn]
  have hxs : |x| ≤ |Real.sinh x| * Real.cosh x := by
    rw [Real.abs_sinh, ← Real.cosh_abs]
    calc |x| ≤ Real.sinh |x| := Real.self_le_sinh_iff.mpr (abs_nonneg x)
    _ ≤ Real.sinh |x| * Real.cosh |x| :=
        le_mul_of_one_le_right (Real.sinh_nonneg_iff.mpr (abs_nonneg x))
          (Real.one_le_cosh |x|)
  calc |x| * (1 / Real.cosh x ^ 2)
      ≤ (|Real.sinh x| * Real.cosh x) * (1 / Real.cosh x ^ 2) :=
        mul_le_mul_of_nonneg_right hxs hnn
  _ = |Real.sinh x| / Real.cosh x := by
        field_simp
        ring
  _ = |Real.tanh x| := by
        rw [Real.tanh_eq_sinh_div_cosh, abs_div, abs_of_pos hc]
  _ ≤ 1 := (abs_tanh_lt_one x).le

lemma abs_dispDF_le_two (h k : ℝ) : |dispDF h k| ≤ 2 := by
  unfold dispDF
  calc |Real.tanh (k * h) +
        k * h * (1 - Real.tanh (k * h) * Real.tanh (k * h))|
      ≤ |Real.tanh (k * h)| +
        |k * h * (1 - Real.tanh (k * h) * Real.tanh (k * h))| := abs_add _ _
  _ ≤ 1 + 1 := add_le_add (abs_tanh_lt_one _).le (abs_mul_sech_sq_le (k * h))
  _ = 2 := by norm_num

lemma newtonLoop_stop_df (h v k : ℝ) (n : ℕ)
    (hdf : |dispDF h k| < 1e-15) : newtonLoop h v (n + 1) k = k := by
  unfold dispDF at hdf
  simp only [newtonLoop]
  rw [if_pos hdf]

lemma newtonLoop_stop_step (h v k : ℝ) (n : ℕ)
    (hdf : ¬|dispDF h k| < 1e-15)
    (hstep : |(k - dispF h v k / dispDF h k) - k| < 1e-12) :
    newtonLoop h v (n + 1) k = k := by
  unfold dispDF at hdf
  unfold dispF dispDF at hstep
  simp only [newtonLoop]
  rw [if_neg hdf, if_pos hstep]

/-- Claim C3 (amended): the deep-water branch returns exactly
`omega²/9.81` as a purely real complex number; in the finite-depth branch,
whenever the Newton iteration halts through the step-size (converged) test
`|k_new − k| < 1e-12`, the returned iterate satisfies the residual bound
`|k·tanh(k·h) − v| < 1e-10`.  (The degenerate-derivative stop
`|f'(k)| < 1e-15` may return an unconverged iterate violating the bound —
see the counterexample.) -/
theorem claim3_amended :
    (∀ omega : ℝ,
      ComputeWaveNumber omega .posInf = ((omega ^ 2 / 9.81 : ℝ) : ℂ) ∧
      (ComputeWaveNumber omega .posInf).im = 0) ∧
    (∀ (h v k : ℝ) (n : ℕ),
      ¬|dispDF h k| < 1e-15 →
      |(k - dispF h v k / dispDF h k) - k| < 1e-12 →
      newtonLoop h v (n + 1) k = k ∧
        |k * Real.tanh (k * h) - v| < 1e-10) := by
  constructor
  · intro omega
    constructor
    · show ((omega * omega / Gravity : ℝ) : ℂ) = ((omega ^ 2 / 9.81 : ℝ) : ℂ)
      exact congrArg Complex.ofReal (by unfold Gravity; ring)
    · show (((omega * omega / Gravity : ℝ) : ℂ)).im = 0
      exact Complex.ofReal_im _
  · intro h v k n hdf hstep
    refine ⟨newtonLoop_stop_step h v k n hdf hstep, ?_⟩
    have hdfge : (1e-15 : ℝ) ≤ |dispDF h k| := not_lt.mp hdf
    have habs : (0 : ℝ) < |dispDF h k| := lt_of_lt_of_le (by norm_num) hdfge
    have h2 := abs_dispDF_le_two h k
    have hstep' : |dispF h v k / dispDF h k| < 1e-12 := by
      have hre : (k - dispF h v k / dispDF h k) - k =
          -(dispF h v k / dispDF h k) := by ring
      rwa [hre, abs_neg] at hstep
    have hf : |dispF h v k| < 2e-12 := by
      rw [abs_div] at hstep'
      have := (div_lt_iff habs).mp hstep'
      calc |dispF h v k| < 1e-12 * |dispDF h k| := this
      _ ≤ 1e-12 * 2 := by nlinarith
      _ = 2e-12 := by norm_num
    have hdisp : dispF h v k = k * Real.tanh (k * h) - v := rfl
    rw [← hdisp]
    calc |dispF h v k| < 2e-12 := hf
    _ < 1e-10 := by norm_num

/-- Witness for claim C3 (amended): at h = 1, v = tanh 1, k = 1 the
derivative is at least 1 and the Newton step is exactly zero, so the loop
stops converged and the residual is far below 1e-10. -/
theorem claim3_witness :
    (¬|dispDF 1 1| < 1e-15) ∧
    |(1 - dispF 1 (Real.tanh 1) 1 / dispDF 1 1) - 1| < 1e-12 ∧
    newtonLoop 1 (Real.tanh 1) 100 1 = 1 ∧
    |1 * Real.tanh (1 * 1) - Real.tanh 1| < 1e-10 := by
  have ht0 : 0 ≤ Real.tanh 1 := tanh_nonneg_of_nonneg (by norm_num)
  have ht1 : Real.tanh 1 ≤ 1 := tanh_le_one _
  have hsq1 : Real.tanh 1 * Real.tanh 1 ≤ Real.tanh 1 := by
    nlinarith [mul_nonneg ht0 (sub_nonneg.mpr ht1)]
  have hsq2 : Real.tanh 1 * Real.tanh 1 ≤ 1 := by
    nlinarith [ht0, ht1]
  have h1 : ¬|dispDF 1 1| < 1e-15 := by
    unfold dispDF
    rw [show ((1 : ℝ) * 1) = 1 from one_mul 1]
    rw [not_lt, abs_of_nonneg (by linarith [ht0, hsq2])]
    linarith [hsq1]
  have h2 : |(1 - dispF 1 (Real.tanh 1) 1 / dispDF 1 1) - 1| < 1e-12 := by
    have hf0 : dispF 1 (Real.tanh 1) 1 = 0 := by
      unfold dispF
      norm_num
    rw [hf0, zero_div]
    norm_num
  obtain ⟨h3, h4⟩ := claim3_amended.2 1 (Real.tanh 1) 1 99 h1 h2
  exact ⟨h1, h2, h3, h4⟩

/-- Counterexample to claim C3 as stated: at omega = √9.81 (so v = 1) and
depth h = 1e-16 the very first iteration hits the degenerate-derivative
stop (`|f'(1)| ≈ 3e-16 < 1e-15`), so `ComputeWaveNumber` returns k = 1,
whose dispersion residual is ≈ 1, far above the claimed 1e-10 bound. -/
theorem claim3_counterexample :
    ComputeWaveNumber (Real.sqrt 9.81) (.fin 1e-16) = ((1 : ℝ) : ℂ) ∧
    ¬|(1 : ℝ) * Real.tanh ((1 : ℝ) * 1e-16) -
        Real.sqrt 9.81 ^ 2 / 9.81| < 1e-10 := by
  have hv : Real.sqrt 9.81 * Real.sqrt 9.81 / Gravity = 1 := by
    rw [Real.mul_self_sqrt (by norm_num : (0 : ℝ) ≤ 9.81)]
    unfold Gravity
    norm_num
  have hsq : Real.sqrt 9.81 ^ 2 / (9.81 : ℝ) = 1 := by
    rw [Real.sq_sqrt (by norm_num : (0 : ℝ) ≤ 9.81)]
    norm_num
  have ht0 : 0 ≤ Real.tanh (1e-16) := tanh_nonneg_of_nonneg (by norm_num)
  have ht1 : Real.tanh (1e-16) ≤ 1 := tanh_le_one _
  have hexp1 : 1 - (1e-16 : ℝ) ≤ Real.exp (-(1e-16)) := by
    have := Real.add_one_le_exp (-(1e-16) : ℝ)
    linarith
  have hexp2 : Real.exp (1e-16) ≤ 1 / (1 - (1e-16 : ℝ)) := by
    have hpos : (0 : ℝ) < 1 - 1e-16 := by norm_num
    rw [le_div_iff hpos]
    have hmul : Real.exp (1e-16) * Real.exp (-(1e-16)) = 1 := by
      rw [← Real.exp_add]
      norm_num
    calc Real.exp (1e-16) * (1 - 1e-16)
        ≤ Real.exp (1e-16) * Real.exp (-(1e-16)) :=
          mul_le_mul_of_nonneg_left hexp1 (Real.exp_pos _).le
    _ = 1 := hmul
  have hsinh : Real.sinh (1e-16) ≤ 2e-16 := by
    rw [Real.sinh_eq]
    have hsub : Real.exp (1e-16) - Real.exp (-(1e-16)) ≤
        1 / (1 - (1e-16 : ℝ)) - (1 - 1e-16) := by linarith
    calc (Real.exp (1e-16) - Real.exp (-(1e-16))) / 2
        ≤ (1 / (1 - (1e-16 : ℝ)) - (1 - 1e-16)) / 2 := by linarith
    _ ≤ 2e-16 := by norm_num
  have htanh : Real.tanh (1e-16) ≤ 2e-16 := by
    rw [Real.tanh_eq_sinh_div_cosh]
    calc Real.sinh (1e-16) / Real.cosh (1e-16) ≤ Real.sinh (1e-16) :=
          div_le_self (Real.sinh_nonneg_iff.mpr (by norm_num))
            (Real.one_le_cosh _)
    _ ≤ 2e-16 := hsinh
  have hone : ((1 : ℝ) * 1e-16) = (1e-16 : ℝ) := one_mul _
  have hsq2c : Real.tanh (1e-16) * Real.tanh (1e-16) ≤ 1 := by
    nlinarith [ht0, ht1]
  have httc : 0 ≤ Real.tanh (1e-16) * Real.tanh (1e-16) :=
    mul_nonneg ht0 ht0
  have hdf_small : |dispDF (1e-16) 1| < 1e-15 := by
    unfold dispDF
    rw [hone, abs_of_nonneg (by linarith [ht0, hsq2c])]
    linarith [htanh, httc]
  constructor
  · show ((newtonLoop 1e-16 (Real.sqrt 9.81 * Real.sqrt 9.81 / Gravity) 100
        (Real.sqrt 9.81 * Real.sqrt 9.81 / Gravity) : ℝ) : ℂ) = ((1 : ℝ) : ℂ)
    rw [hv]
    exact congrArg Complex.ofReal (newtonLoop_stop_df 1e-16 1 1 99 hdf_small)
  · rw [hsq, not_lt, one_mul, hone]
    have habs : |Real.tanh (1e-16) - 1| = 1 - Real.tanh (1e-16) := by
      rw [abs_of_nonpos (by linarith)]
      ring
    rw [habs]
    linarith

lemma newtonLoop_eq_specNewton (h v : ℝ) :
    ∀ (n : ℕ) (k : ℝ), newtonLoop h v n k = specNewtonIterate h v n k := by
  intro n
  induction n with
  | zero => intro k; rfl
  | succ n ih =>
    intro k
    simp only [newtonLoop, specNewtonIterate]
    have hdf : Real.tanh (k * h) + k * h *
        (1 - Real.tanh (k * h) * Real.tanh (k * h)) =
        Real.tanh (k * h) + k * h * (1 - Real.tanh (k * h) ^ 2) := by ring
    rw [hdf]
    split_ifs with hc1 hc2
    · rfl
    · rfl
    · exact ih _

/-- Claim C4: for finite depth, `ComputeWaveNumber` implements exactly the
Newton-Raphson scheme specified in §4.2 (same f, f', initial guess v, at
most 100 iterations, same two stopping tests, same returned iterate). -/
theorem claim4 :
    ∀ (omega h : ℝ),
      ComputeWaveNumber omega (.fin h) =
        ((specComputeWaveNumberFinite omega h : ℝ) : ℂ) := by
  intro omega h
  show ((newtonLoop h (omega * omega / Gravity) 100
      (omega * omega / Gravity) : ℝ) : ℂ) = _
  unfold specComputeWaveNumberFinite
  rw [newtonLoop_eq_specNewton]
  have hg : omega * omega / Gravity = omega ^ 2 / 9.81 := by
    unfold Gravity
    ring
  rw [hg]

end GreenFunctions
